import Mathlib

/-!
Verification of the query-intent extractor and structured-search-request
builder of `gpt_researcher/retrievers/custom/custom.py` (class
`CustomRetriever`).

Strings are modelled as `List Char` (Python `str` is a sequence of Unicode
code points).  The regular expressions of the source are hand-compiled into
matching functions that follow Python `re` semantics (leftmost search,
greedy quantifiers with the backtracking actually reachable in these
patterns).  Python's `\d` also matches non-ASCII decimal digits and `\s`
matches some non-ASCII whitespace; the embedding restricts both to their
ASCII ranges, which are the only ones that occur in case numbers and the
keyword tables.  Case-insensitive matching (`re.IGNORECASE`) and
`str.lower()` are modelled for ASCII and the Cyrillic block А-Я/а-я, the
alphabets of every pattern and keyword in the source.
-/

namespace CustomRetriever

/-- ASCII decimal digit, Python regex `\d` (restricted to ASCII). -/
def pyIsDigit (c : Char) : Bool := c.isDigit

/-- ASCII whitespace, Python regex `\s` (restricted to ASCII). -/
def pyIsSpace (c : Char) : Bool :=
  c = ' ' || c = '\t' || c = '\n' || c = '\x0b' || c = '\x0c' || c = '\r'

/-- Uppercase Cyrillic letter А-Я (U+0410 to U+042F). -/
def isCyrUpper (c : Char) : Bool := 'А' ≤ c && c ≤ 'Я'

/-- Lowercase Cyrillic letter а-я (U+0430 to U+044F). -/
def isCyrLower (c : Char) : Bool := 'а' ≤ c && c ≤ 'я'

/-- Character class `[А-Яа-яA-Za-z0-9]` of the case-number suffix group. -/
def isAlnumRu (c : Char) : Bool :=
  isCyrUpper c || isCyrLower c || c.isAlpha || c.isDigit

/-- Python `str.lower()` on ASCII letters and the Cyrillic block А-Я
(uppercase Cyrillic is lowercased by adding 0x20). -/
def ruLower (c : Char) : Char :=
  if 'A' ≤ c && c ≤ 'Z' then Char.ofNat (c.toNat + 32)
  else if isCyrUpper c then Char.ofNat (c.toNat + 32)
  else c

/-- Python `str.lower()` over a whole string. -/
def pyLower (s : List Char) : List Char := s.map ruLower

/-- Python `str.split(sep)` for a one-character separator: the result is
never empty and empty fields are kept. -/
def splitOnChar (sep : Char) : List Char → List (List Char)
  | [] => [[]]
  | c :: rest =>
    let r := splitOnChar sep rest
    if c = sep then [] :: r
    else
      match r with
      | h :: t => (c :: h) :: t
      | [] => [[c]]

/-- Python `s.replace(old, new, 1)`: rewrite only the first (leftmost)
occurrence of `old`, or return `s` unchanged when `old` does not occur. -/
def replaceFirst (s old new : List Char) : List Char :=
  match s with
  | [] => if old.isPrefixOf [] then new else []
  | c :: rest =>
    if old.isPrefixOf (c :: rest) then new ++ (c :: rest).drop old.length
    else c :: replaceFirst rest old new

/-- Python substring containment `needle in hay`. -/
def isSubstr (needle : List Char) : List Char → Bool
  | [] => needle.isPrefixOf []
  | c :: t => if needle.isPrefixOf (c :: t) then true else isSubstr needle t

/-- `re.search`: try the pattern matcher at every position from the left
and return the first (leftmost) match. -/
def searchPat {α : Type} (f : List Char → Option α) : List Char → Option α
  | [] => f []
  | c :: rest =>
    match f (c :: rest) with
    | some m => some m
    | none => searchPat f rest

/-- Python `int()` on a run of decimal digits (only ever applied to digit
runs coming out of a successful match). -/
def digitsToNat (s : List Char) : Nat :=
  s.foldl (fun a c => 10 * a + (c.toNat - 48)) 0

/-! ## Case-number patterns (`extract_case_number`, custom.py lines 82-108)

Pattern 1: `[АA]\d{1,2}-\d+/\d{2,4}(?:-[А-Яа-яA-Za-z0-9]+)*`
Pattern 2: `[АA]-\d+/\d{2,4}(?:-[А-Яа-яA-Za-z0-9]+)*`

A match is kept in structured form: the text before the slash, the year
group `\d{2,4}`, and the optional dashed suffix groups; `group0`
reassembles Python's `match.group(0)`. -/

/-- Greedy continuation of `(?:-[А-Яа-яA-Za-z0-9]+)*` after the first
group's dash and first alphanumeric character have been consumed. -/
def sgInRun : List Char → List Char
  | [] => []
  | c :: rest =>
    if isAlnumRu c then c :: sgInRun rest
    else if c = '-' then
      match rest with
      | [] => []
      | c2 :: rest2 => if isAlnumRu c2 then '-' :: c2 :: sgInRun rest2 else []
    else []

/-- The span matched by the greedy `(?:-[А-Яа-яA-Za-z0-9]+)*` suffix group
of the case-number patterns (possibly empty). -/
def suffixGroups : List Char → List Char
  | '-' :: c :: rest => if isAlnumRu c then '-' :: c :: sgInRun rest else []
  | _ => []

/-- Structured form of a case-number match: `group0 = pre ++ '/' :: (year ++ sfx)`. -/
structure CaseParts where
  pre : List Char
  year : List Char
  sfx : List Char
deriving DecidableEq

/-- Python `match.group(0)` of a case-number match. -/
def CaseParts.group0 (p : CaseParts) : List Char := p.pre ++ '/' :: (p.year ++ p.sfx)

/-- The common tail `-\d+/\d{2,4}(?:-[А-Яа-яA-Za-z0-9]+)*` of both
case-number patterns: the dash-and-digits part before the slash, then the
2-to-4-digit year (greedy), then the suffix groups.  `\d+` and `\d{2,4}`
are greedy; neither needs backtracking because `/` is not a digit and the
suffix group may match the empty string. -/
def matchTail (cs : List Char) : Option (List Char × List Char × List Char) :=
  match cs with
  | '-' :: r1 =>
    let num := r1.takeWhile pyIsDigit
    if num.isEmpty then none
    else
      match r1.drop num.length with
      | '/' :: r2 =>
        let year := (r2.takeWhile pyIsDigit).take 4
        if year.length < 2 then none
        else some ('-' :: num, year, suffixGroups (r2.drop year.length))
      | _ => none
  | _ => none

/-- Pattern 1 `[АA]\d{1,2}-\d+/\d{2,4}(?:-…)*` anchored at the current
position.  `\d{1,2}` is greedy: two digits are tried first and the
one-digit alternative is the backtracking fallback (it can only succeed
when the second character is not a digit, since the tail starts with a
dash). -/
def matchPat1At (cs : List Char) : Option CaseParts :=
  match cs with
  | c :: rest =>
    if c = 'А' || c = 'A' then
      match rest with
      | d1 :: rest1 =>
        if pyIsDigit d1 then
          match rest1 with
          | d2 :: rest2 =>
            if pyIsDigit d2 then
              match matchTail rest2 with
              | some (dn, y, s) => some ⟨c :: d1 :: d2 :: dn, y, s⟩
              | none =>
                match matchTail rest1 with
                | some (dn, y, s) => some ⟨c :: d1 :: dn, y, s⟩
                | none => none
            else
              match matchTail rest1 with
              | some (dn, y, s) => some ⟨c :: d1 :: dn, y, s⟩
              | none => none
          | [] => none
        else none
      | [] => none
    else none
  | [] => none

/-- Pattern 2 `[АA]-\d+/\d{2,4}(?:-…)*` anchored at the current position. -/
def matchPat2At (cs : List Char) : Option CaseParts :=
  match cs with
  | c :: rest =>
    if c = 'А' || c = 'A' then
      match matchTail rest with
      | some (dn, y, s) => some ⟨c :: dn, y, s⟩
      | none => none
    else none
  | [] => none

/-- The `for pattern in patterns: re.search(...)` loop of
`extract_case_number`: the whole text is searched with pattern 1 first and
pattern 2 is only tried when pattern 1 matches nowhere. -/
def caseFirstMatch (query : List Char) : Option CaseParts :=
  match searchPat matchPat1At query with
  | some m => some m
  | none => searchPat matchPat2At query

/-- Year normalization of `extract_case_number` (custom.py lines 98-105):
`parts = case_number.split('/')`; when there is a second part, its text up
to the first dash is the year; a 2-digit year `yy` is replaced by `20yy`
(when `int(yy) < 50`) or `19yy`, rewriting only the first occurrence of
the substring `/yy`. -/
def normalizeYear (case_number : List Char) : List Char :=
  match splitOnChar '/' case_number with
  | _ :: p1 :: _ =>
    let year_part :=
      match splitOnChar '-' p1 with
      | y :: _ => y
      | [] => []
    if year_part.length = 2 then
      let full_year :=
        if digitsToNat year_part < 50 then '2' :: '0' :: year_part
        else '1' :: '9' :: year_part
      replaceFirst case_number ('/' :: year_part) ('/' :: full_year)
    else case_number
  | _ => case_number

/-- `CustomRetriever.extract_case_number` on text input (custom.py lines
82-108): first match of the ordered pattern list, year-normalized. -/
def extract_case_number (query : List Char) : Option (List Char) :=
  match caseFirstMatch query with
  | some m => some (normalizeYear m.group0)
  | none => none

/-! ## Company-name patterns (`extract_company_name`, custom.py lines 110-126)

All five patterns are searched with `re.IGNORECASE`:
1. `(?:ООО|ЗАО|ОАО|ПАО|АО)\s*[«"]([^»"]+)[»"]`
2. `(?:ООО|ЗАО|ОАО|ПАО|АО)\s+([А-Яа-яA-Za-z0-9\s\-]+)`
3. `(?:ИП\s+[А-Я][а-я]+\s+[А-Я][а-я]+\s+[А-Я][а-я]+)`
4. `ОГРН\s*:\s*(\d{13}|\d{15})`
5. `ИНН\s*:\s*(\d{10}|\d{12})`
The function returns `match.group(0)` of the first pattern that matches. -/

/-- Case-insensitive literal matching (per `re.IGNORECASE`): consume the
pattern characters, comparing through `ruLower`; the returned span keeps
the input's own characters, as `match.group(0)` does. -/
def ciTake : List Char → List Char → Option (List Char × List Char)
  | [], cs => some ([], cs)
  | _ :: _, [] => none
  | p :: pt, c :: ct =>
    if ruLower c = ruLower p then
      match ciTake pt ct with
      | some (m, r) => some (c :: m, r)
      | none => none
    else none

/-- The alternation `(?:ООО|ЗАО|ОАО|ПАО|АО)`, alternatives tried left to
right as in Python. -/
def matchOrgForm (cs : List Char) : Option (List Char × List Char) :=
  match ciTake ("ООО".data) cs with
  | some r => some r
  | none =>
    match ciTake ("ЗАО".data) cs with
    | some r => some r
    | none =>
      match ciTake ("ОАО".data) cs with
      | some r => some r
      | none =>
        match ciTake ("ПАО".data) cs with
        | some r => some r
        | none => ciTake ("АО".data) cs

/-- Structured match of pattern 1: legal-form prefix, whitespace, opening
quote, inner captured group, closing quote. -/
structure OrgQuoted where
  pfx : List Char
  ws : List Char
  openq : Char
  inner : List Char
  closeq : Char
deriving DecidableEq

/-- `match.group(0)` of a pattern-1 match. -/
def OrgQuoted.group0 (m : OrgQuoted) : List Char :=
  m.pfx ++ m.ws ++ m.openq :: (m.inner ++ [m.closeq])

/-- Pattern 1 anchored at the current position.  `\s*` and `([^»"]+)` are
greedy; neither needs backtracking because whitespace is not a quote and
the inner class excludes the closing quotes. -/
def matchP1At (cs : List Char) : Option OrgQuoted :=
  match matchOrgForm cs with
  | none => none
  | some (pfx, r1) =>
    let ws := r1.takeWhile pyIsSpace
    match r1.drop ws.length with
    | [] => none
    | q1 :: r3 =>
      if q1 = '«' || q1 = '"' then
        let inner := r3.takeWhile (fun c => !(c = '»' || c = '"'))
        if inner.isEmpty then none
        else
          match r3.drop inner.length with
          | [] => none
          | q2 :: _ =>
            if q2 = '»' || q2 = '"' then some ⟨pfx, ws, q1, inner, q2⟩ else none
      else none

/-- Structured match of pattern 2: legal-form prefix, the whitespace
matched by `\s+`, and the name matched by the captured class. -/
structure OrgBare where
  pfx : List Char
  ws : List Char
  name : List Char
deriving DecidableEq

/-- `match.group(0)` of a pattern-2 match. -/
def OrgBare.group0 (m : OrgBare) : List Char := m.pfx ++ m.ws ++ m.name

/-- Character class `[А-Яа-яA-Za-z0-9\s\-]` of pattern 2. -/
def isP2Class (c : Char) : Bool := isAlnumRu c || pyIsSpace c || c = '-'

/-- Pattern 2 anchored at the current position.  `\s+` is greedy; when the
captured class cannot match after the full whitespace run, Python
backtracks `\s+` by one character and the class (which also contains
whitespace) matches that final whitespace character. -/
def matchP2At (cs : List Char) : Option OrgBare :=
  match matchOrgForm cs with
  | none => none
  | some (pfx, r1) =>
    let ws := r1.takeWhile pyIsSpace
    if ws.isEmpty then none
    else
      let name := (r1.drop ws.length).takeWhile isP2Class
      if !name.isEmpty then some ⟨pfx, ws, name⟩
      else if 2 ≤ ws.length then
        some ⟨pfx, ws.take (ws.length - 1), ws.drop (ws.length - 1)⟩
      else none

/-- Structured match of pattern 3 (`ИП` plus three capitalized words; under
`re.IGNORECASE` both `[А-Я]` and `[а-я]` accept any Cyrillic letter of
А-Яа-я). -/
structure IpMatch where
  ip : List Char
  ws1 : List Char
  w1 : List Char
  ws2 : List Char
  w2 : List Char
  ws3 : List Char
  w3 : List Char
deriving DecidableEq

/-- `match.group(0)` of a pattern-3 match. -/
def IpMatch.group0 (m : IpMatch) : List Char :=
  m.ip ++ m.ws1 ++ m.w1 ++ m.ws2 ++ m.w2 ++ m.ws3 ++ m.w3

/-- Cyrillic letter (either case), the effective class of `[А-Я]` and
`[а-я]` under `re.IGNORECASE`. -/
def isCyrLetter (c : Char) : Bool := isCyrUpper c || isCyrLower c

/-- Pattern 3 anchored at the current position: each word is a maximal run
of at least two Cyrillic letters, separated by `\s+`. -/
def matchP3At (cs : List Char) : Option IpMatch :=
  match ciTake ("ИП".data) cs with
  | none => none
  | some (ip, r1) =>
    let ws1 := r1.takeWhile pyIsSpace
    if ws1.isEmpty then none
    else
      let r2 := r1.drop ws1.length
      let w1 := r2.takeWhile isCyrLetter
      if w1.length < 2 then none
      else
        let r3 := r2.drop w1.length
        let ws2 := r3.takeWhile pyIsSpace
        if ws2.isEmpty then none
        else
          let r4 := r3.drop ws2.length
          let w2 := r4.takeWhile isCyrLetter
          if w2.length < 2 then none
          else
            let r5 := r4.drop w2.length
            let ws3 := r5.takeWhile pyIsSpace
            if ws3.isEmpty then none
            else
              let r6 := r5.drop ws3.length
              let w3 := r6.takeWhile isCyrLetter
              if w3.length < 2 then none
              else some ⟨ip, ws1, w1, ws2, w2, ws3, w3⟩

/-- Structured match of patterns 4 and 5: keyword, whitespace around the
colon, and the captured digit group. -/
structure RegMatch where
  kw : List Char
  wsA : List Char
  wsB : List Char
  digits : List Char
deriving DecidableEq

/-- `match.group(0)` of a pattern-4/5 match. -/
def RegMatch.group0 (m : RegMatch) : List Char :=
  m.kw ++ m.wsA ++ ':' :: (m.wsB ++ m.digits)

/-- Patterns 4 and 5 share the shape `KW\s*:\s*(\d{a}|\d{b})` with `a < b`.
The first alternative `\d{a}` consumes exactly `a` digit characters; when
fewer than `a` digits follow, `\d{b}` cannot match either, so the second
alternative is unreachable (kept for faithfulness). -/
def matchRegAt (kw : List Char) (a b : Nat) (cs : List Char) : Option RegMatch :=
  match ciTake kw cs with
  | none => none
  | some (kwm, r1) =>
    let wsA := r1.takeWhile pyIsSpace
    match r1.drop wsA.length with
    | ':' :: r2 =>
      let wsB := r2.takeWhile pyIsSpace
      let ds := (r2.drop wsB.length).takeWhile pyIsDigit
      if a ≤ ds.length then some ⟨kwm, wsA, wsB, ds.take a⟩
      else if b ≤ ds.length then some ⟨kwm, wsA, wsB, ds.take b⟩
      else none
    | _ => none

/-- Pattern 4: `ОГРН\s*:\s*(\d{13}|\d{15})`. -/
def matchP4At (cs : List Char) : Option RegMatch := matchRegAt ("ОГРН".data) 13 15 cs

/-- Pattern 5: `ИНН\s*:\s*(\d{10}|\d{12})`. -/
def matchP5At (cs : List Char) : Option RegMatch := matchRegAt ("ИНН".data) 10 12 cs

/-- `CustomRetriever.extract_company_name` (custom.py lines 110-126): the
ordered pattern list is tried with `re.search`; the full matched span
`match.group(0)` of the first matching pattern is returned. -/
def extract_company_name (query : List Char) : Option (List Char) :=
  match searchPat matchP1At query with
  | some m => some m.group0
  | none =>
    match searchPat matchP2At query with
    | some m => some m.group0
    | none =>
      match searchPat matchP3At query with
      | some m => some m.group0
      | none =>
        match searchPat matchP4At query with
        | some m => some m.group0
        | none =>
          match searchPat matchP5At query with
          | some m => some m.group0
          | none => none

/-! ## Document-type keyword table (`extract_document_type`, lines 128-147) -/

/-- The `doc_types` table, in its declared (insertion) order. -/
def DOC_TYPES : List (List Char × List (List Char)) :=
  [ ("исковое заявление".data, ["исковое заявление".data, "иск".data])
  , ("отзыв".data, ["отзыв на исковое заявление".data, "отзыв".data])
  , ("апелляционная жалоба".data, ["апелляционная жалоба".data, "апелляция".data])
  , ("кассационная жалоба".data, ["кассационная жалоба".data, "кассация".data])
  , ("заявление".data, ["заявление".data, "ходатайство".data])
  , ("определение".data, ["определение суда".data])
  , ("решение".data, ["решение суда".data])
  , ("постановление".data, ["постановление суда".data, "постановление".data]) ]

/-- The double loop of `extract_document_type`: first canonical label any
of whose variants is contained in the lowercased query. -/
def findDocType : List (List Char × List (List Char)) → List Char → Option (List Char)
  | [], _ => none
  | (label, variants) :: rest, ql =>
    if variants.any (fun v => isSubstr v ql) then some label
    else findDocType rest ql

/-- `CustomRetriever.extract_document_type` (custom.py lines 128-147). -/
def extract_document_type (query : List Char) : Option (List Char) :=
  findDocType DOC_TYPES (pyLower query)

/-! ## Byte-string inputs

`extract_case_number` starts with `if isinstance(query, bytes): query =
query.decode('utf-8')` (custom.py lines 89-90).  The other two extractors
have no such check: `re.search` with a `str` pattern on a `bytes` object
and `str in bytes` containment both raise `TypeError`. -/

/-- A Python argument that is either text or a byte string. -/
inductive PyInput where
  | pstr (s : List Char)
  | pbytes (b : List Nat)
deriving DecidableEq

/-- The exceptions reachable on byte input. -/
inductive PyError where
  | typeError
  | unicodeDecodeError
deriving DecidableEq

/-- Strict UTF-8 decoding, `bytes.decode('utf-8')`: rejects truncated
sequences, bad continuation bytes, overlong encodings, surrogates and
code points above U+10FFFF. -/
def utf8Decode : List Nat → Option (List Char)
  | [] => some []
  | b1 :: rest =>
    if b1 < 0x80 then
      match utf8Decode rest with
      | some cs => some (Char.ofNat b1 :: cs)
      | none => none
    else if 0xC2 ≤ b1 && b1 ≤ 0xDF then
      match rest with
      | b2 :: rest2 =>
        if 0x80 ≤ b2 && b2 ≤ 0xBF then
          match utf8Decode rest2 with
          | some cs => some (Char.ofNat ((b1 - 0xC0) * 64 + (b2 - 0x80)) :: cs)
          | none => none
        else none
      | [] => none
    else if 0xE0 ≤ b1 && b1 ≤ 0xEF then
      match rest with
      | b2 :: b3 :: rest3 =>
        let lo2 := if b1 = 0xE0 then 0xA0 else 0x80
        let hi2 := if b1 = 0xED then 0x9F else 0xBF
        if (lo2 ≤ b2 && b2 ≤ hi2) && (0x80 ≤ b3 && b3 ≤ 0xBF) then
          match utf8Decode rest3 with
          | some cs =>
            some (Char.ofNat ((b1 - 0xE0) * 4096 + (b2 - 0x80) * 64 + (b3 - 0x80)) :: cs)
          | none => none
        else none
      | _ => none
    else if 0xF0 ≤ b1 && b1 ≤ 0xF4 then
      match rest with
      | b2 :: b3 :: b4 :: rest4 =>
        let lo2 := if b1 = 0xF0 then 0x90 else 0x80
        let hi2 := if b1 = 0xF4 then 0x8F else 0xBF
        if (lo2 ≤ b2 && b2 ≤ hi2) && (0x80 ≤ b3 && b3 ≤ 0xBF) && (0x80 ≤ b4 && b4 ≤ 0xBF) then
          match utf8Decode rest4 with
          | some cs =>
            some (Char.ofNat
              ((b1 - 0xF0) * 262144 + (b2 - 0x80) * 4096 + (b3 - 0x80) * 64 + (b4 - 0x80)) :: cs)
          | none => none
        else none
      | _ => none
    else none

/-- `extract_case_number` on an arbitrary text-or-bytes argument: bytes
are decoded as UTF-8 first (custom.py lines 89-90); invalid UTF-8 raises
`UnicodeDecodeError`. -/
def extract_case_number_py : PyInput → Except PyError (Option (List Char))
  | .pstr s => .ok (extract_case_number s)
  | .pbytes b =>
    match utf8Decode b with
    | some s => .ok (extract_case_number s)
    | none => .error .unicodeDecodeError

/-- `extract_company_name` on an arbitrary text-or-bytes argument: there
is no bytes check, and `re.search` with a `str` pattern on a bytes object
raises `TypeError` before any matching happens. -/
def extract_company_name_py : PyInput → Except PyError (Option (List Char))
  | .pstr s => .ok (extract_company_name s)
  | .pbytes _ => .error .typeError

/-- `extract_document_type` on an arbitrary text-or-bytes argument: there
is no bytes check; `query.lower()` succeeds on bytes but the first
containment test `variant in query_lower` compares a `str` against
`bytes` and raises `TypeError`. -/
def extract_document_type_py : PyInput → Except PyError (Option (List Char))
  | .pstr s => .ok (extract_document_type s)
  | .pbytes _ => .error .typeError

/-! ## Search-request model (`search_court_decisions` and `search`)

The query DSL documents built by the source are modelled by inductive
values mirroring exactly the clause kinds the code emits: `term`,
`match_phrase`, `match` with `fuzziness`, `multi_match`, and
`bool`/`should` groups with `minimum_should_match`. -/

/-- A field-level clause inside a `bool`/`should` group. -/
inductive LeafClause where
  | term (field : String) (value : List Char) (boost : Rat)
  | matchPhrase (field : String) (queryText : List Char) (boost : Rat)
  | matchFuzzy (field : String) (queryText : List Char) (boost : Rat) (fuzziness : String)
deriving DecidableEq

/-- One must-clause of the emitted boolean query.  The code emits exactly
two shapes: a one-level `bool`/`should` group of field clauses with a
`minimum_should_match` count, or a bare `multi_match`. -/
inductive Clause where
  | multiMatch (queryText : List Char) (fields : List String) (matchType : String)
      (operator : String) (fuzziness : String)
  | boolShould (should : List LeafClause) (minimumShouldMatch : Nat)
deriving DecidableEq

/-- Highlight settings for one field, keys of the per-field highlight
objects (absent keys are `none`). -/
structure HighlightField where
  typ : Option String
  pre_tags : List String
  post_tags : List String
  fragment_size : Option Nat
  number_of_fragments : Option Nat
  fragmenter : Option String
deriving DecidableEq

/-- The body sent by `search_court_decisions` (custom.py lines 225-263):
must-clauses, `size`, `_source` projection, `sort` entries of
(field, order, missing), and the highlight map. -/
structure SearchBody where
  must : List Clause
  size : Nat
  source : List String
  sortSpec : List (String × String × Option String)
  highlight : List (String × HighlightField)
deriving DecidableEq

/-- The body sent per index by the multi-index fallback of `search`
(custom.py lines 345-366). -/
structure GenericBody where
  size : Nat
  query : Clause
  highlight : List (String × HighlightField)
deriving DecidableEq

/-- A request issued to the backend: one of the two body shapes. -/
inductive ESRequest where
  | court (body : SearchBody)
  | generic (body : GenericBody)
deriving DecidableEq

/-- The `ES_INDICES` table (custom.py lines 18-24), in declared order. -/
def ES_INDICES : List (String × String) :=
  [ ("court_decisions", "court_decisions_index")
  , ("court_reviews", "court_reviews_index")
  , ("legal_articles", "legal_articles_index")
  , ("ruslawod_chunks", "ruslawod_chunks_index")
  , ("procedural_forms", "procedural_forms_index") ]

/-- A highlight value for one field: Elasticsearch returns a list of
fragments, but the code also handles a bare string
(`isinstance(fragments, list)` check, lines 298-302). -/
inductive HVal where
  | one (s : List Char)
  | many (l : List (List Char))
deriving DecidableEq

/-- A document-field value, covering the value kinds this retriever reads
or writes: strings, numbers, lists of strings. -/
inductive DVal where
  | s (v : List Char)
  | q (v : Rat)
  | l (v : List (List Char))
deriving DecidableEq

/-- A Python dict with string keys, in insertion order. -/
abbrev Dict := List (String × DVal)

/-- One hit of a backend response: `_id`, `_score`, `_source` and the
optional `highlight` map. -/
structure Hit where
  id : List Char
  score : Rat
  source : Dict
  highlight : Option (List (String × HVal))
deriving DecidableEq

/-- A backend failure (any exception out of `es.search`, including the
degraded `self.es = None` state). -/
inductive BackendError where
  | failure (msg : String)
deriving DecidableEq

/-- The search backend: one call per issued request. -/
abbrev Backend := String → ESRequest → Except BackendError (List Hit)

/-- Python dict assignment `d[k] = v`: updates the existing key in place
or appends a new one. -/
def dictSet (d : Dict) (k : String) (v : DVal) : Dict :=
  match d with
  | [] => [(k, v)]
  | (k1, v1) :: rest => if k1 = k then (k1, v) :: rest else (k1, v1) :: dictSet rest k v

/-- Python `k in d` lookup, first (only) binding of `k`. -/
def dictGet (d : Dict) (k : String) : Option DVal :=
  match d with
  | [] => none
  | (k1, v1) :: rest => if k1 = k then some v1 else dictGet rest k

/-- Python truthiness of a field value. -/
def truthy : DVal → Bool
  | .s v => !v.isEmpty
  | .q v => v ≠ 0
  | .l v => !v.isEmpty

/-- `strptime` month directive `%m`: one or two digits, value 1-12. -/
def parseMonth (m : List Char) : Option Nat :=
  if m.all pyIsDigit && 1 ≤ m.length && m.length ≤ 2 then
    let v := digitsToNat m
    if 1 ≤ v && v ≤ 12 then some v else none
  else none

/-- `strptime` day directive `%d`: one or two digits, value 1-31 (further
validated against the month). -/
def parseDay (d : List Char) : Option Nat :=
  if d.all pyIsDigit && 1 ≤ d.length && d.length ≤ 2 then
    let v := digitsToNat d
    if 1 ≤ v && v ≤ 31 then some v else none
  else none

/-- Number of days of a month, with the Gregorian leap rule used by
`datetime`. -/
def daysInMonth (y m : Nat) : Nat :=
  if m = 2 then
    if y % 4 = 0 && (y % 100 ≠ 0 || y % 400 = 0) then 29 else 28
  else if m = 4 || m = 6 || m = 9 || m = 11 then 30
  else 31

/-- `datetime.strptime(s, '%Y-%m-%d')`: `%Y` is exactly four digits, the
year must be at least `MINYEAR = 1`, and the day must exist in the
month. -/
def parseYMD (s : List Char) : Option (Nat × Nat × Nat) :=
  match splitOnChar '-' s with
  | [y, m, d] =>
    if y.length = 4 && y.all pyIsDigit then
      let yv := digitsToNat y
      if yv = 0 then none
      else
        match parseMonth m, parseDay d with
        | some mv, some dv => if dv ≤ daysInMonth yv mv then some (yv, mv, dv) else none
        | _, _ => none
    else none
  | _ => none

/-- Zero-pad a month or day to two digits, as `%m`/`%d` format. -/
def pad2 (n : Nat) : List Char :=
  if n < 10 then '0' :: Nat.toDigits 10 n else Nat.toDigits 10 n

/-- `.strftime('%Y-%m-%d')` of a parsed date (`%Y` unpadded as on glibc;
identical to the input whenever the input was already zero-padded). -/
def formatYMD (y m d : Nat) : List Char :=
  Nat.toDigits 10 y ++ '-' :: (pad2 m ++ '-' :: pad2 d)

/-- One round of the date loop (custom.py lines 286-293): a present,
truthy, string-valued field that parses as `%Y-%m-%d` is re-serialized;
any `ValueError`/`TypeError` is swallowed and the value kept. -/
def processDateField (d : Dict) (k : String) : Dict :=
  match dictGet d k with
  | some v =>
    if truthy v then
      match v with
      | .s str =>
        match parseYMD str with
        | some t => dictSet d k (.s (formatYMD t.1 t.2.1 t.2.2))
        | none => d
      | _ => d
    else d
  | none => d

/-- Flatten the per-field highlight mapping into one ordered fragment list
(custom.py lines 296-302). -/
def collectHighlights : Option (List (String × HVal)) → List (List Char)
  | none => []
  | some fields =>
    fields.flatMap (fun p =>
      match p.2 with
      | .many l => l
      | .one s => [s])

/-- Python `str.rstrip(cutset)`: strip trailing characters belonging to
the cutset (a character set, not a suffix). -/
def pyRstripSet (s : List Char) (cutset : List Char) : List Char :=
  (s.reverse.dropWhile (fun c => cutset.contains c)).reverse

/-! ## Must-clause construction (`search_court_decisions`, lines 159-222) -/

/-- Script variants of a case number (lines 165-169): the number itself,
plus the number with every Cyrillic `А` replaced by Latin `A` when a
Cyrillic `А` occurs, otherwise with every Latin `A` replaced by Cyrillic
`А`. -/
def caseVariants (case_number : List Char) : List (List Char) :=
  if 'А' ∈ case_number then
    [case_number, case_number.map (fun c => if c = 'А' then 'A' else c)]
  else
    [case_number, case_number.map (fun c => if c = 'A' then 'А' else c)]

/-- The case-number must-clause (lines 171-177): exact `term` matches with
boost 10 for every variant, then `match_phrase` full-text matches with
boost 5 for every variant, grouped as `should` with
`minimum_should_match: 1`. -/
def caseNumberClause (case_number : List Char) : Clause :=
  .boolShould
    ((caseVariants case_number).map (fun v => .term "case_number" v 10) ++
     (caseVariants case_number).map (fun v => .matchPhrase "full_text" v 5))
    1

/-- Company-name normalization (line 183): curly quotes and apostrophes
become straight double quotes. -/
def normalizeCompany (company : List Char) : List Char :=
  company.map (fun c => if c = '«' || c = '»' || c = '\'' then '"' else c)

/-- `re.sub(r'^(ООО|ЗАО|ОАО|ПАО|АО)\s*[«"]?\s*', '', s)` (line 184):
strip one leading legal-form abbreviation (case-sensitively), following
whitespace, an optional opening quote and more whitespace. -/
def stripOrgForm (s : List Char) : List Char :=
  let afterAlt :=
    if ("ООО".data).isPrefixOf s then some (s.drop 3)
    else if ("ЗАО".data).isPrefixOf s then some (s.drop 3)
    else if ("ОАО".data).isPrefixOf s then some (s.drop 3)
    else if ("ПАО".data).isPrefixOf s then some (s.drop 3)
    else if ("АО".data).isPrefixOf s then some (s.drop 2)
    else none
  match afterAlt with
  | none => s
  | some r1 =>
    let r2 := r1.dropWhile pyIsSpace
    let r3 :=
      match r2 with
      | c :: t => if c = '«' || c = '"' then t else r2
      | [] => r2
    r3.dropWhile pyIsSpace

/-- `re.sub(r'[»"]?\s*$', '', s)` (line 185): strip trailing whitespace
and at most one closing quote right before it. -/
def stripTrailingQuote (s : List Char) : List Char :=
  let r1 := s.reverse.dropWhile pyIsSpace
  let r2 :=
    match r1 with
    | c :: t => if c = '»' || c = '"' then t else r1
    | [] => r1
  r2.reverse

/-- The company must-clause (lines 181-194): exact phrases on the two
party fields (boost 8), fuzzy matches on them (boost 4, `AUTO`), and a
full-text phrase (boost 2), grouped as `should` with
`minimum_should_match: 1`. -/
def companyClause (company : List Char) : Clause :=
  let normalized := normalizeCompany company
  let clean := stripTrailingQuote (stripOrgForm normalized)
  .boolShould
    [ .matchPhrase "claimant" normalized 8
    , .matchPhrase "defendant" normalized 8
    , .matchFuzzy "claimant" clean 4 "AUTO"
    , .matchFuzzy "defendant" clean 4 "AUTO"
    , .matchPhrase "full_text" normalized 2 ]
    1

/-- The document-type must-clause (lines 197-202). -/
def docTypeClause (doc_type : List Char) : Clause :=
  .boolShould
    [ .term "vid_dokumenta" doc_type 6
    , .matchPhrase "full_text" doc_type 3 ]
    1

/-- The generic fallback must-clause (lines 205-222): one `multi_match`
over the seven boosted fields, `best_fields`, `operator: and`,
`fuzziness: AUTO`. -/
def genericMustClause (query : List Char) : Clause :=
  .multiMatch query
    [ "case_number^10", "claimant^8", "defendant^8", "subject^6"
    , "court_name^4", "judges^3", "full_text^2" ]
    "best_fields" "and" "AUTO"

/-- The must-clause list built by `search_court_decisions` (lines
159-222): one clause per extracted entity, in case-number, company,
document-type order, with the generic `multi_match` as the fallback when
nothing was extracted. -/
def courtDecisionsMustClauses (query : List Char) : List Clause :=
  let case_number := extract_case_number query
  let company_name := extract_company_name query
  let doc_type := extract_document_type query
  let m1 : List Clause :=
    match case_number with
    | some cn => [caseNumberClause cn]
    | none => []
  let m2 : List Clause :=
    m1 ++ (match company_name with
      | some c => [companyClause c]
      | none => [])
  let m3 : List Clause :=
    m2 ++ (match doc_type with
      | some d => [docTypeClause d]
      | none => [])
  if m3.isEmpty then [genericMustClause query] else m3

/-- The simple per-field highlight object `{"pre_tags": ["<b>"],
"post_tags": ["</b>"]}`. -/
def simpleHighlight : HighlightField := ⟨none, ["<b>"], ["</b>"], none, none, none⟩

/-- The body built by `search_court_decisions` (lines 225-263). -/
def courtBody (query : List Char) (limit : Nat) : SearchBody :=
  ⟨ courtDecisionsMustClauses query
  , limit
  , [ "case_number", "court_name", "date", "decision_date"
    , "subject", "claimant", "defendant", "full_text"
    , "doc_id", "chunk_id", "instance", "region"
    , "judges", "arguments", "conclusion", "result"
    , "laws", "amount", "vid_dokumenta", "vidpr" ]
  , [ ("_score", "desc", none)
    , ("date", "desc", some "_last")
    , ("doc_id", "asc", none)
    , ("chunk_id", "asc", none) ]
  , [ ("full_text", ⟨some "unified", ["<b>"], ["</b>"], some 300, some 3, some "span"⟩)
    , ("case_number", simpleHighlight)
    , ("claimant", simpleHighlight)
    , ("defendant", simpleHighlight)
    , ("subject", simpleHighlight)
    , ("court_name", simpleHighlight)
    , ("judges", simpleHighlight) ] ⟩

/-- The per-index body of the multi-index fallback (lines 345-366): a
wildcard-field `multi_match` with the split size budget and a wildcard
highlight. -/
def genericBody (query : List Char) (per_index_limit : Nat) : GenericBody :=
  ⟨ per_index_limit
  , .multiMatch query ["*"] "best_fields" "and" "AUTO"
  , [ ("*", ⟨none, ["<b>"], ["</b>"], some 300, some 3, none⟩) ] ⟩

/-! ## Result post-processing and the two search paths -/

/-- Post-processing of one hit of `search_court_decisions` (lines
276-304): attach score, synthetic url, index, document-type tag, run the
date loop over `date`, `decision_date`, `indexed_at`, and flatten the
highlights. -/
def postProcessCourt (hit : Hit) : Dict :=
  let s0 := dictSet hit.source "score" (.q hit.score)
  let s1 := dictSet s0 "url" (.s ("es://court_decisions_index/".data ++ hit.id))
  let s2 := dictSet s1 "index" (.s ("court_decisions_index".data))
  let s3 := dictSet s2 "doc_type" (.s ("court_decision".data))
  let s4 := ["date", "decision_date", "indexed_at"].foldl processDateField s3
  dictSet s4 "highlights" (.l (collectHighlights hit.highlight))

/-- `CustomRetriever.search_court_decisions` (lines 149-310): build the
body, issue the request, post-process the hits; any backend exception is
caught and yields the empty list. -/
def search_court_decisions (be : Backend) (query : List Char) (limit : Nat) : List Dict :=
  match be "court_decisions_index" (.court (courtBody query limit)) with
  | .error _ => []
  | .ok hits => hits.map postProcessCourt

/-- Post-processing of one hit of the multi-index fallback (lines
371-397): like the court path but with the hit's own index name, the
`doc_type` tag `index_type.rstrip('_index')` (a character-set strip), and
five date fields. -/
def postProcessGeneric (index_type index_name : String) (hit : Hit) : Dict :=
  let s0 := dictSet hit.source "score" (.q hit.score)
  let s1 := dictSet s0 "url" (.s ("es://".data ++ index_name.data ++ '/' :: hit.id))
  let s2 := dictSet s1 "index" (.s index_name.data)
  let s3 := dictSet s2 "doc_type" (.s (pyRstripSet index_type.data ("_index".data)))
  let s4 :=
    ["date", "decision_date", "publication_date", "creation_date", "indexed_at"].foldl
      processDateField s3
  dictSet s4 "highlights" (.l (collectHighlights hit.highlight))

/-- One index of the fallback loop (lines 343-401): a backend error on
this index is caught and contributes nothing. -/
def fetchIndex (be : Backend) (query : List Char) (per : Nat) (p : String × String) :
    List Dict :=
  match be p.2 (.generic (genericBody query per)) with
  | .error _ => []
  | .ok hits => hits.map (postProcessGeneric p.1 p.2)

/-- Sort key of the final re-sort (line 404): `(score, number of
highlight fragments)`, read back with `.get` defaults. -/
def sortKey (d : Dict) : Rat × Nat :=
  ( match dictGet d "score" with
    | some (.q v) => v
    | _ => 0
  , match dictGet d "highlights" with
    | some (.l v) => v.length
    | _ => 0 )

/-- `x` may precede `y` in the descending sort: the key of `y` is
lexicographically at most the key of `x`.  A stable sort with this
relation is exactly Python's stable `list.sort(key=..., reverse=True)`. -/
def relLe (x y : Dict) : Bool :=
  ((sortKey y).1 < (sortKey x).1) ||
    ((sortKey y).1 = (sortKey x).1 && (sortKey y).2 ≤ (sortKey x).2)

/-- The final re-sort of the fallback results (line 404). -/
def sortByRelevance (l : List Dict) : List Dict := l.mergeSort relLe

/-- The multi-index fallback of `search` (lines 335-407): split the
budget (`max(2, max_results // len(ES_INDICES))`), query every index,
skipping failing ones, then re-sort and truncate. -/
def searchAllIndices (be : Backend) (query : List Char) (max_results : Nat) : List Dict :=
  let per := max 2 (max_results / ES_INDICES.length)
  let all := ES_INDICES.flatMap (fetchIndex be query per)
  (sortByRelevance all).take max_results

/-- `CustomRetriever.search` (lines 312-411): number-of-case path first,
then company path, each returning only when it produced results, then the
multi-index fallback. -/
def search (be : Backend) (query : List Char) (max_results : Nat) : List Dict :=
  let afterCompany :=
    match extract_company_name query with
    | some _ =>
      let results := search_court_decisions be query max_results
      if results.isEmpty then searchAllIndices be query max_results else results
    | none => searchAllIndices be query max_results
  match extract_case_number query with
  | some _ =>
    let results := search_court_decisions be query max_results
    if results.isEmpty then afterCompany else results
  | none => afterCompany

/-! ## Spec-side restatement used by claim C1 -/

/-- The year pivot rule as the spec states it: a 2-digit year `yy` becomes
`20yy` when its value is below 50 and `19yy` otherwise. -/
def pivotYear (y : List Char) : List Char :=
  if digitsToNat y < 50 then '2' :: '0' :: y else '1' :: '9' :: y

/-! ## Concrete backends used by the witnesses -/

/-- A backend that answers every request with no hits. -/
def beOk : Backend := fun _ _ => .ok []

/-- A backend that fails on every request. -/
def beFailC : Backend := fun _ _ => .error (.failure "connection refused")

/-- A backend that fails exactly on the `legal_articles_index` index. -/
def beFail2 : Backend := fun i _ =>
  if i = "legal_articles_index" then .error (.failure "index down") else .ok []

/-- `beFail2` with the failing fallback request patched to return no hits. -/
def beFail2Fixed : Backend := fun i r =>
  if i = "legal_articles_index" ∧ r = .generic (genericBody ("спор".data) (max 2 (10 / ES_INDICES.length)))
  then .ok [] else beFail2 i r

/-! ## Helper lemmas -/

theorem searchPat_some {α : Type} {f : List Char → Option α} {l : List Char} {m : α}
    (h : searchPat f l = some m) : ∃ t, f t = some m := by
  induction l with
  | nil => exact ⟨[], h⟩
  | cons c rest ih =>
    rw [searchPat] at h
    cases hf : f (c :: rest) with
    | some v => rw [hf] at h; exact ⟨c :: rest, hf.trans h⟩
    | none => rw [hf] at h; exact ih h

theorem sgInRun_mem : ∀ (l : List Char), ∀ c ∈ sgInRun l, c = '-' ∨ isAlnumRu c = true := by
  intro l
  induction l using sgInRun.induct with
  | case1 => intro c hc; simp [sgInRun] at hc
  | case2 c rest h ih =>
    intro x hx
    rw [sgInRun.eq_def] at hx
    simp only [h, if_pos] at hx
    rcases List.mem_cons.1 hx with h1 | h1
    · exact Or.inr (h1 ▸ h)
    · exact ih x h1
  | case3 h =>
    intro x hx
    rw [sgInRun.eq_def] at hx
    simp [h] at hx
  | case4 c2 rest2 h2 h ih =>
    intro x hx
    rw [sgInRun.eq_def] at hx
    simp [h, h2, List.mem_cons] at hx
    rcases hx with h1 | h1 | h1
    · exact Or.inl h1
    · exact Or.inr (h1 ▸ h2)
    · exact ih x h1
  | case5 c2 rest2 h2 h =>
    intro x hx
    rw [sgInRun.eq_def] at hx
    simp [h, h2] at hx
  | case6 c2 rest2 h h2 =>
    intro x hx
    rw [sgInRun.eq_def] at hx
    simp [h, h2] at hx

theorem suffixGroups_mem :
    ∀ (l : List Char), ∀ c ∈ suffixGroups l, c = '-' ∨ isAlnumRu c = true := by
  intro l c hc
  match l with
  | [] => simp [suffixGroups] at hc
  | [x] =>
    rw [suffixGroups.eq_def] at hc
    split at hc
    · next heq => cases heq
    · simp at hc
  | x :: y :: rest =>
    rw [suffixGroups.eq_def] at hc
    split at hc
    · next c2 rest2 heq =>
      cases heq
      split at hc
      · next halnum =>
        rcases List.mem_cons.1 hc with h1 | h1
        · exact Or.inl h1
        rcases List.mem_cons.1 h1 with h2 | h2
        · exact Or.inr (h2 ▸ halnum)
        · exact sgInRun_mem _ c h2
      · simp at hc
    · simp at hc

theorem suffixGroups_shape (l : List Char) :
    suffixGroups l = [] ∨ ∃ t, suffixGroups l = '-' :: t := by
  rw [suffixGroups.eq_def]
  split
  · split
    · exact Or.inr ⟨_, rfl⟩
    · exact Or.inl rfl
  · exact Or.inl rfl

/-- Structural facts about a successful `matchTail`: the dash-and-number
part is a dash followed by digits, the year is 2 to 4 digits, and the
suffix part contains only dashes and alphanumerics and starts with a dash
when nonempty. -/
theorem matchTail_sound {cs dn y s : List Char} (h : matchTail cs = some (dn, y, s)) :
    (∀ c ∈ dn, c = '-' ∨ pyIsDigit c = true) ∧
    (∀ c ∈ y, pyIsDigit c = true) ∧ 2 ≤ y.length ∧
    (∀ c ∈ s, c = '-' ∨ isAlnumRu c = true) ∧
    (s = [] ∨ ∃ t, s = '-' :: t) := by
  rw [matchTail.eq_def] at h
  split at h
  · next r1 =>
    simp only [] at h
    split at h
    · exact absurd h (by simp)
    · next hnum =>
      split at h
      · next r2 heq =>
        split at h
        · exact absurd h (by simp)
        · next hlen =>
          injection h with h
          injection h with hdn h
          injection h with hy hs
          subst hdn; subst hy; subst hs
          refine ⟨?_, ?_, ?_, ?_, ?_⟩
          · intro c hc
            rcases List.mem_cons.1 hc with h1 | h1
            · exact Or.inl h1
            · exact Or.inr (List.mem_takeWhile_imp h1)
          · intro c hc
            exact List.mem_takeWhile_imp (List.take_subset 4 _ hc)
          · omega
          · exact suffixGroups_mem _
          · exact suffixGroups_shape _
      · exact absurd h (by simp)
  · exact absurd h (by simp)

/-- `pyIsDigit` characters are not slashes or dashes. -/
theorem ne_of_digit {c : Char} (h : pyIsDigit c = true) : c ≠ '/' ∧ c ≠ '-' := by
  constructor <;> intro hc <;> subst hc <;> exact absurd h (by decide)

/-- Structural facts about a successful anchored match of either
case-number pattern. -/
theorem matchPatAt_sound {cs : List Char} {p : CaseParts}
    (h : matchPat1At cs = some p ∨ matchPat2At cs = some p) :
    '/' ∉ p.pre ∧ (∀ c ∈ p.year, pyIsDigit c = true) ∧ 2 ≤ p.year.length ∧
    (∀ c ∈ p.sfx, c = '-' ∨ isAlnumRu c = true) ∧ (p.sfx = [] ∨ ∃ t, p.sfx = '-' :: t) := by
  rcases h with h | h
  · rw [matchPat1At.eq_def] at h
    split at h
    · next c rest =>
      split at h
      · next hc =>
        split at h
        · next d1 rest1 =>
          split at h
          · next hd1 =>
            split at h
            · next d2 rest2 =>
              split at h
              · next hd2 =>
                split at h
                · next dn y s htail =>
                  injection h with h
                  subst h
                  obtain ⟨hdn, hy, hylen, hs, hshape⟩ := matchTail_sound htail
                  refine ⟨?_, hy, hylen, hs, hshape⟩
                  intro hmem
                  simp only [List.mem_cons] at hmem
                  rcases hmem with h1 | h1 | h1 | h1
                  · have hc2 : c = 'А' ∨ c = 'A' := by simpa using hc
                    rcases hc2 with h2 | h2 <;> subst h2 <;> exact absurd h1 (by decide)
                  · exact (ne_of_digit hd1).1 h1.symm
                  · exact (ne_of_digit hd2).1 h1.symm
                  · rcases hdn '/' h1 with h2 | h2
                    · exact absurd h2 (by decide)
                    · exact absurd h2 (by decide)
                · split at h
                  · next dn y s htail =>
                    injection h with h
                    subst h
                    obtain ⟨hdn, hy, hylen, hs, hshape⟩ := matchTail_sound htail
                    refine ⟨?_, hy, hylen, hs, hshape⟩
                    intro hmem
                    simp only [List.mem_cons] at hmem
                    rcases hmem with h1 | h1 | h1
                    · have hc2 : c = 'А' ∨ c = 'A' := by simpa using hc
                      rcases hc2 with h2 | h2 <;> subst h2 <;> exact absurd h1 (by decide)
                    · exact (ne_of_digit hd1).1 h1.symm
                    · rcases hdn '/' h1 with h2 | h2
                      · exact absurd h2 (by decide)
                      · exact absurd h2 (by decide)
                  · exact absurd h (by simp)
              · split at h
                · next dn y s htail =>
                  injection h with h
                  subst h
                  obtain ⟨hdn, hy, hylen, hs, hshape⟩ := matchTail_sound htail
                  refine ⟨?_, hy, hylen, hs, hshape⟩
                  intro hmem
                  simp only [List.mem_cons] at hmem
                  rcases hmem with h1 | h1 | h1
                  · have hc2 : c = 'А' ∨ c = 'A' := by simpa using hc
                    rcases hc2 with h2 | h2 <;> subst h2 <;> exact absurd h1 (by decide)
                  · exact (ne_of_digit hd1).1 h1.symm
                  · rcases hdn '/' h1 with h2 | h2
                    · exact absurd h2 (by decide)
                    · exact absurd h2 (by decide)
                · exact absurd h (by simp)
            · exact absurd h (by simp)
          · exact absurd h (by simp)
        · exact absurd h (by simp)
      · exact absurd h (by simp)
    · exact absurd h (by simp)
  · rw [matchPat2At.eq_def] at h
    split at h
    · next c rest =>
      split at h
      · next hc =>
        split at h
        · next dn y s htail =>
          injection h with h
          subst h
          obtain ⟨hdn, hy, hylen, hs, hshape⟩ := matchTail_sound htail
          refine ⟨?_, hy, hylen, hs, hshape⟩
          intro hmem
          simp only [List.mem_cons] at hmem
          rcases hmem with h1 | h1
          · have hc2 : c = 'А' ∨ c = 'A' := by simpa using hc
            rcases hc2 with h2 | h2 <;> subst h2 <;> exact absurd h1 (by decide)
          · rcases hdn '/' h1 with h2 | h2
            · exact absurd h2 (by decide)
            · exact absurd h2 (by decide)
        · exact absurd h (by simp)
      · exact absurd h (by simp)
    · exact absurd h (by simp)

/-- Structural facts about the first case-number match found in a
query. -/
theorem caseFirstMatch_sound {q : List Char} {p : CaseParts}
    (h : caseFirstMatch q = some p) :
    '/' ∉ p.pre ∧ (∀ c ∈ p.year, pyIsDigit c = true) ∧ 2 ≤ p.year.length ∧
    (∀ c ∈ p.sfx, c = '-' ∨ isAlnumRu c = true) ∧ (p.sfx = [] ∨ ∃ t, p.sfx = '-' :: t) := by
  rw [caseFirstMatch] at h
  cases h1 : searchPat matchPat1At q with
  | some m =>
    rw [h1] at h
    injection h with h
    subst h
    obtain ⟨t, ht⟩ := searchPat_some h1
    exact matchPatAt_sound (Or.inl ht)
  | none =>
    rw [h1] at h
    obtain ⟨t, ht⟩ := searchPat_some h
    exact matchPatAt_sound (Or.inr ht)


/-- `splitOnChar` never returns the empty list. -/
theorem splitOnChar_ne_nil (sep : Char) (l : List Char) : splitOnChar sep l ≠ [] := by
  induction l with
  | nil => simp [splitOnChar]
  | cons c rest ih =>
    rw [splitOnChar]
    split
    · simp
    · cases h : splitOnChar sep rest with
      | nil => exact absurd h ih
      | cons a b => simp [h]

/-- Splitting a separator-free string yields the one-field list. -/
theorem splitOnChar_not_mem {sep : Char} {l : List Char} (h : sep ∉ l) :
    splitOnChar sep l = [l] := by
  induction l with
  | nil => rfl
  | cons c rest ih =>
    have hc : c ≠ sep := fun he => h (he ▸ List.mem_cons_self c rest)
    have hrest : sep ∉ rest := fun he => h (List.mem_cons_of_mem c he)
    rw [splitOnChar]
    simp only [if_neg hc, ih hrest]

/-- Splitting across the first separator: a separator-free head field is
peeled off whole. -/
theorem splitOnChar_append_sep {sep : Char} {a : List Char} (b : List Char) (ha : sep ∉ a) :
    splitOnChar sep (a ++ sep :: b) = a :: splitOnChar sep b := by
  induction a with
  | nil => rw [List.nil_append, splitOnChar, if_pos rfl]
  | cons c a2 ih =>
    have hc : c ≠ sep := fun he => ha (he ▸ List.mem_cons_self c a2)
    have ha2 : sep ∉ a2 := fun he => ha (List.mem_cons_of_mem c he)
    rw [List.cons_append, splitOnChar]
    simp only [if_neg hc, ih ha2]

/-- A list is a `isPrefixOf`-prefix of itself followed by anything. -/
theorem isPrefixOf_append_self : ∀ (a b : List Char), a.isPrefixOf (a ++ b) = true
  | [], _ => by simp [List.isPrefixOf]
  | c :: t, b => by
    rw [List.cons_append, List.isPrefixOf]
    simp [isPrefixOf_append_self t b]

/-- `replaceFirst` replaces an occurrence sitting at the front. -/
theorem replaceFirst_front (o rest n : List Char) :
    replaceFirst (o ++ rest) o n = n ++ rest := by
  cases o with
  | nil =>
    cases rest with
    | nil => simp [replaceFirst, List.isPrefixOf]
    | cons c t => simp [replaceFirst, List.isPrefixOf]
  | cons c t =>
    rw [List.cons_append, replaceFirst]
    rw [if_pos (by rw [← List.cons_append]; exact isPrefixOf_append_self (c :: t) rest)]
    simp [List.drop_left']

/-- `replaceFirst` skips over characters that cannot start the needle. -/
theorem replaceFirst_append_left {h : Char} {a : List Char} (s o n : List Char)
    (ha : h ∉ a) : replaceFirst (a ++ s) (h :: o) n = a ++ replaceFirst s (h :: o) n := by
  induction a with
  | nil => simp
  | cons c a2 ih =>
    have hc : h ≠ c := fun he => ha (he ▸ List.mem_cons_self c a2)
    have ha2 : h ∉ a2 := fun he => ha (List.mem_cons_of_mem c he)
    rw [List.cons_append, replaceFirst]
    rw [if_neg ?_, ih ha2, List.cons_append]
    intro hp
    rw [List.isPrefixOf] at hp
    simp only [Bool.and_eq_true, beq_iff_eq] at hp
    exact hc hp.1

/-- Main normalization lemma: on a string of the shape produced by the
case-number patterns, `normalizeYear` rewrites exactly a 2-digit year via
the pivot rule and leaves everything else unchanged. -/
theorem normalizeYear_spec (pre y s : List Char)
    (hpre : '/' ∉ pre) (hy : ∀ c ∈ y, pyIsDigit c = true) (hylen : 2 ≤ y.length)
    (hs : ∀ c ∈ s, c = '-' ∨ isAlnumRu c = true)
    (hshape : s = [] ∨ ∃ t, s = '-' :: t) :
    normalizeYear (pre ++ '/' :: (y ++ s)) =
      if y.length = 2 then pre ++ '/' :: (pivotYear y ++ s)
      else pre ++ '/' :: (y ++ s) := by
  have hySlash : '/' ∉ y := fun hm => by
    have := hy '/' hm
    exact absurd this (by decide)
  have hyDash : '-' ∉ y := fun hm => by
    have := hy '-' hm
    exact absurd this (by decide)
  have hsSlash : '/' ∉ s := fun hm => by
    rcases hs '/' hm with h1 | h1
    · exact absurd h1 (by decide)
    · exact absurd h1 (by decide)
  have hysSlash : '/' ∉ y ++ s := by
    intro hm
    rcases List.mem_append.1 hm with h1 | h1
    · exact hySlash h1
    · exact hsSlash h1
  have hsplit : splitOnChar '/' (pre ++ '/' :: (y ++ s)) = [pre, y ++ s] := by
    rw [splitOnChar_append_sep (y ++ s) hpre, splitOnChar_not_mem hysSlash]
  have hyear : (match splitOnChar '-' (y ++ s) with
      | yp :: _ => yp
      | [] => ([] : List Char)) = y := by
    rcases hshape with h1 | ⟨t, h1⟩
    · subst h1
      rw [List.append_nil, splitOnChar_not_mem hyDash]
    · subst h1
      rw [splitOnChar_append_sep t hyDash]
  rw [normalizeYear, hsplit]
  simp only [hyear]
  by_cases hlen : y.length = 2
  · rw [if_pos hlen, if_pos hlen]
    have hrw : pre ++ '/' :: (y ++ s) = pre ++ (('/' :: y) ++ s) := by simp
    rw [hrw, replaceFirst_append_left _ _ _ hpre, replaceFirst_front ('/' :: y) s]
    show pre ++ (('/' :: pivotYear y) ++ s) = pre ++ '/' :: (pivotYear y ++ s)
    simp
  · rw [if_neg hlen, if_neg hlen]

/-! ## Claim theorems -/

/-- C1: for every input in which the ordered case-number patterns find a
(leftmost, first-pattern) match, `extract_case_number` returns exactly the
matched span, with a 2-digit year component rewritten to four digits by
the pivot rule (below 50 becomes 20xx, otherwise 19xx) at the year's
position, and a 4-digit year left unchanged; for every input matching
neither pattern it returns `none`. -/
theorem extract_case_number_spec (q : List Char) :
    (∀ p : CaseParts, caseFirstMatch q = some p →
      extract_case_number q = some (if p.year.length = 2
        then p.pre ++ '/' :: (pivotYear p.year ++ p.sfx)
        else p.pre ++ '/' :: (p.year ++ p.sfx))) ∧
    (caseFirstMatch q = none → extract_case_number q = none) := by
  constructor
  · intro p hp
    obtain ⟨hpre, hy, hylen, hs, hshape⟩ := caseFirstMatch_sound hp
    rw [extract_case_number, hp]
    show some (normalizeYear p.group0) = _
    rw [CaseParts.group0]
    rw [normalizeYear_spec p.pre p.year p.sfx hpre hy hylen hs hshape]
  · intro h
    rw [extract_case_number, h]

/-- Witness for C1: the query `дело А40-183194/24 суд` matches pattern 1
with year `24`, which the pivot rule rewrites to `2024`. -/
theorem extract_case_number_spec_witness :
    extract_case_number ("дело А40-183194/24 суд".data) =
      some ("А40-183194/2024".data) := by
  have h := (extract_case_number_spec ("дело А40-183194/24 суд".data)).1
    ⟨"А40-183194".data, "24".data, []⟩ (by rfl)
  exact h.trans (by decide)

/-- A successful case-insensitive literal match consumes exactly as many
characters as the pattern has. -/
theorem ciTake_length : ∀ (ps cs m r : List Char), ciTake ps cs = some (m, r) →
    m.length = ps.length := by
  intro ps
  induction ps with
  | nil =>
    intro cs m r h
    rw [ciTake] at h
    injection h with h
    injection h with h1 h2
    rw [← h1]
  | cons p pt ih =>
    intro cs m r h
    match cs with
    | [] => exact absurd h (by simp [ciTake])
    | c :: ct =>
      rw [ciTake] at h
      split at h
      · split at h
        · next m2 r2 heq =>
          injection h with h
          injection h with h1 h2
          rw [← h1, List.length_cons, ih ct m2 r2 heq]
          rfl
        · exact absurd h (by simp)
      · exact absurd h (by simp)

/-- Every alternative of the legal-form alternation is at least two
characters long. -/
theorem matchOrgForm_len {cs pfx r : List Char} (h : matchOrgForm cs = some (pfx, r)) :
    2 ≤ pfx.length := by
  rw [matchOrgForm] at h
  cases h1 : ciTake ("ООО".data) cs with
  | some v =>
    rw [h1] at h
    injection h with h
    subst h
    rw [ciTake_length _ _ _ _ h1]
    decide
  | none =>
    rw [h1] at h
    cases h2 : ciTake ("ЗАО".data) cs with
    | some v =>
      rw [h2] at h
      injection h with h
      subst h
      rw [ciTake_length _ _ _ _ h2]
      decide
    | none =>
      rw [h2] at h
      cases h3 : ciTake ("ОАО".data) cs with
      | some v =>
        rw [h3] at h
        injection h with h
        subst h
        rw [ciTake_length _ _ _ _ h3]
        decide
      | none =>
        rw [h3] at h
        cases h4 : ciTake ("ПАО".data) cs with
        | some v =>
          rw [h4] at h
          injection h with h
          subst h
          rw [ciTake_length _ _ _ _ h4]
          decide
        | none =>
          rw [h4] at h
          rw [ciTake_length _ _ _ _ h]
          decide

/-- A successful anchored pattern-1 match keeps the legal-form prefix it
consumed, which is at least two characters long. -/
theorem matchP1At_pfx_len {cs : List Char} {m : OrgQuoted} (h : matchP1At cs = some m) :
    2 ≤ m.pfx.length := by
  rw [matchP1At.eq_def] at h
  split at h
  · exact absurd h (by simp)
  · next pfx r1 heq =>
    simp only [] at h
    split at h
    · exact absurd h (by simp)
    · next q1 r3 =>
      split at h
      · split at h
        · exact absurd h (by simp)
        · split at h
          · exact absurd h (by simp)
          · next q2 _ =>
            split at h
            · injection h with h
              subst h
              exact matchOrgForm_len heq
            · exact absurd h (by simp)
      · exact absurd h (by simp)

/-- A successful anchored pattern-2 match keeps the legal-form prefix it
consumed, which is at least two characters long. -/
theorem matchP2At_pfx_len {cs : List Char} {m : OrgBare} (h : matchP2At cs = some m) :
    2 ≤ m.pfx.length := by
  rw [matchP2At.eq_def] at h
  split at h
  · exact absurd h (by simp)
  · next pfx r1 heq =>
    simp only [] at h
    split at h
    · exact absurd h (by simp)
    · split at h
      · injection h with h
        subst h
        exact matchOrgForm_len heq
      · split at h
        · injection h with h
          subst h
          exact matchOrgForm_len heq
        · exact absurd h (by simp)

/-- C6: when pattern 1 (quoted organization name) is the first matching
pattern, `extract_company_name` returns the entire matched span - the
legal-form prefix, whitespace, the opening quote, the inner name, the
closing quote - not just the inner captured group; the prefix has at least
two characters; and when patterns are tried in order and pattern 2 (bare
organization name) matches first, the full span including the prefix is
returned as well. -/
theorem extract_company_name_full_span (q : List Char) :
    (∀ m : OrgQuoted, searchPat matchP1At q = some m →
      extract_company_name q = some (m.pfx ++ m.ws ++ m.openq :: (m.inner ++ [m.closeq])) ∧
      2 ≤ m.pfx.length ∧
      extract_company_name q ≠ some m.inner) ∧
    (∀ m : OrgBare, searchPat matchP1At q = none → searchPat matchP2At q = some m →
      extract_company_name q = some (m.pfx ++ m.ws ++ m.name) ∧ 2 ≤ m.pfx.length) := by
  constructor
  · intro m h
    have hval : extract_company_name q =
        some (m.pfx ++ m.ws ++ m.openq :: (m.inner ++ [m.closeq])) := by
      rw [extract_company_name, h]
      rfl
    obtain ⟨t, ht⟩ := searchPat_some h
    refine ⟨hval, matchP1At_pfx_len ht, ?_⟩
    rw [hval]
    intro hcon
    injection hcon with hcon
    have := congrArg List.length hcon
    simp only [List.length_append, List.length_cons] at this
    omega
  · intro m h1 h2
    obtain ⟨t, ht⟩ := searchPat_some h2
    constructor
    · rw [extract_company_name, h1, h2]
      rfl
    · exact matchP2At_pfx_len ht

/-- Witness for C6: the spec's own example query; the returned span is
`ООО «Сахкомцентр»`, including the `ООО` prefix and both quotes, and
differs from the inner group `Сахкомцентр`. -/
theorem extract_company_name_full_span_witness :
    extract_company_name ("Найди решения по ООО «Сахкомцентр»".data) =
      some ("ООО «Сахкомцентр»".data) ∧
    extract_company_name ("Найди решения по ООО «Сахкомцентр»".data) ≠
      some ("Сахкомцентр".data) := by
  have h := (extract_company_name_full_span ("Найди решения по ООО «Сахкомцентр»".data)).1
    ⟨"ООО".data, " ".data, '«', "Сахкомцентр".data, '»'⟩ (by rfl)
  refine ⟨h.1.trans (by decide), ?_⟩
  have h3 := h.2.2
  intro hcon
  exact h3 hcon

/-- When no variant of any table row is contained in the query, the
keyword lookup finds nothing. -/
theorem findDocType_none {ql : List Char} :
    ∀ (L : List (List Char × List (List Char))),
      (∀ p ∈ L, ∀ v ∈ p.2, isSubstr v ql = false) → findDocType L ql = none := by
  intro L
  induction L with
  | nil => intro _; rfl
  | cons p rest ih =>
    intro h
    obtain ⟨label, variants⟩ := p
    rw [findDocType]
    rw [if_neg ?_]
    · exact ih (fun p2 hp2 => h p2 (List.mem_cons_of_mem _ hp2))
    · intro hc
      obtain ⟨v, hv, hv2⟩ := List.any_eq_true.1 hc
      have := h (label, variants) (List.mem_cons_self _ _) v hv
      rw [this] at hv2
      cases hv2

/-- C8: on any input in which neither case-number pattern, none of the
five organization patterns, and no document-type trigger phrase matches,
all three extractors return `none`; and on text input none of them can
raise (their total Python-level wrappers return `ok`). -/
theorem extractors_absent_on_no_markers (q : List Char)
    (h1 : searchPat matchPat1At q = none) (h2 : searchPat matchPat2At q = none)
    (h3 : searchPat matchP1At q = none) (h4 : searchPat matchP2At q = none)
    (h5 : searchPat matchP3At q = none) (h6 : searchPat matchP4At q = none)
    (h7 : searchPat matchP5At q = none)
    (h8 : ∀ p ∈ DOC_TYPES, ∀ v ∈ p.2, isSubstr v (pyLower q) = false) :
    extract_case_number q = none ∧ extract_company_name q = none ∧
    extract_document_type q = none ∧
    extract_case_number_py (.pstr q) = .ok none ∧
    extract_company_name_py (.pstr q) = .ok none ∧
    extract_document_type_py (.pstr q) = .ok none := by
  have hc : extract_case_number q = none := by
    rw [extract_case_number, caseFirstMatch, h1, h2]
  have hco : extract_company_name q = none := by
    rw [extract_company_name, h3, h4, h5, h6, h7]
  have hd : extract_document_type q = none := by
    rw [extract_document_type, findDocType_none DOC_TYPES h8]
  refine ⟨hc, hco, hd, ?_, ?_, ?_⟩
  · rw [extract_case_number_py, hc]
  · rw [extract_company_name_py, hco]
  · rw [extract_document_type_py, hd]

/-- Witness for C8: `hello world` contains no marker of any kind. -/
theorem extractors_absent_on_no_markers_witness :
    extract_case_number ("hello world".data) = none ∧
    extract_company_name ("hello world".data) = none ∧
    extract_document_type ("hello world".data) = none ∧
    extract_case_number_py (.pstr ("hello world".data)) = .ok none ∧
    extract_company_name_py (.pstr ("hello world".data)) = .ok none ∧
    extract_document_type_py (.pstr ("hello world".data)) = .ok none :=
  extractors_absent_on_no_markers ("hello world".data)
    (by rfl) (by rfl) (by rfl) (by rfl) (by rfl) (by rfl) (by rfl) (by decide)

/-- C2: when only a case number is extracted from the query (no
organization name, no document type), the request body contains exactly
one must-clause: a `should` disjunction with `minimum_should_match 1`
holding an exact `term` sub-clause with boost 10 and a full-text
`match_phrase` sub-clause with boost 5 for each of the two script
variants of the case number. -/
theorem case_number_only_must_clause (q cn : List Char) (lim : Nat)
    (h1 : extract_case_number q = some cn) (h2 : extract_company_name q = none)
    (h3 : extract_document_type q = none) :
    (courtBody q lim).must =
      [Clause.boolShould
        ((caseVariants cn).map (fun v => LeafClause.term "case_number" v 10) ++
         (caseVariants cn).map (fun v => LeafClause.matchPhrase "full_text" v 5))
        1] ∧
    (caseVariants cn).length = 2 := by
  constructor
  · show courtDecisionsMustClauses q = _
    rw [courtDecisionsMustClauses, h1, h2, h3]
    rfl
  · rw [caseVariants]
    split <;> rfl

/-- Witness for C2: a pure case-number query; the Cyrillic-А number gets
a Latin-A variant. -/
theorem case_number_only_must_clause_witness :
    (courtBody ("А40-123/2019".data) 10).must =
      [Clause.boolShould
        ((caseVariants ("А40-123/2019".data)).map
          (fun v => LeafClause.term "case_number" v 10) ++
         (caseVariants ("А40-123/2019".data)).map
          (fun v => LeafClause.matchPhrase "full_text" v 5))
        1] ∧
    (caseVariants ("А40-123/2019".data)).length = 2 :=
  case_number_only_must_clause ("А40-123/2019".data) ("А40-123/2019".data) 10
    (by rfl) (by rfl) (by rfl)

/-- C3: every built request body has at least one must-clause, and when no
entity at all is extracted the single must-clause is the generic
`multi_match` fallback over exactly the seven boosted fields with
`best_fields`, `operator and` and automatic fuzziness. -/
theorem fallback_must_clause :
    (∀ (q : List Char) (lim : Nat), (courtBody q lim).must ≠ []) ∧
    (∀ (q : List Char) (lim : Nat),
      extract_case_number q = none → extract_company_name q = none →
      extract_document_type q = none →
      (courtBody q lim).must =
        [Clause.multiMatch q
          [ "case_number^10", "claimant^8", "defendant^8", "subject^6"
          , "court_name^4", "judges^3", "full_text^2" ]
          "best_fields" "and" "AUTO"]) := by
  constructor
  · intro q lim
    show courtDecisionsMustClauses q ≠ []
    rw [courtDecisionsMustClauses]
    split
    · simp
    · next hne =>
      intro hc
      rw [hc] at hne
      simp at hne
  · intro q lim h1 h2 h3
    show courtDecisionsMustClauses q = _
    rw [courtDecisionsMustClauses, h1, h2, h3]
    rfl

/-- Witness for C3: a query with no recognizable entity falls back to the
seven-field `multi_match`. -/
theorem fallback_must_clause_witness :
    (courtBody ("hello world".data) 10).must =
      [Clause.multiMatch ("hello world".data)
        [ "case_number^10", "claimant^8", "defendant^8", "subject^6"
        , "court_name^4", "judges^3", "full_text^2" ]
        "best_fields" "and" "AUTO"] :=
  fallback_must_clause.2 ("hello world".data) 10 (by rfl) (by rfl) (by rfl)

/-- C7 counterexample: the UTF-8 encoding of `ИНН: 1234567890` is valid
and its decoded form is matched by company pattern 5, yet
`extract_company_name` on the byte string raises `TypeError` instead of
behaving as on the decoded string - so not all three extractors decode
byte input. -/
theorem bytes_company_typeerror_cex :
    utf8Decode [208, 152, 208, 157, 208, 157, 58, 32, 49, 50, 51, 52, 53, 54, 55, 56, 57, 48] =
      some ("ИНН: 1234567890".data) ∧
    extract_company_name ("ИНН: 1234567890".data) = some ("ИНН: 1234567890".data) ∧
    extract_company_name_py
      (.pbytes [208, 152, 208, 157, 208, 157, 58, 32, 49, 50, 51, 52, 53, 54, 55, 56, 57, 48]) =
      .error .typeError :=
  ⟨by decide, by decide, rfl⟩

/-- C7 amended: only `extract_case_number` decodes byte input as UTF-8 and
then behaves exactly as on the decoded string; `extract_company_name` and
`extract_document_type` raise `TypeError` on every byte input. -/
theorem bytes_handling_amended :
    (∀ (b : List Nat) (s : List Char), utf8Decode b = some s →
      extract_case_number_py (.pbytes b) = .ok (extract_case_number s)) ∧
    (∀ b : List Nat, extract_company_name_py (.pbytes b) = .error .typeError) ∧
    (∀ b : List Nat, extract_document_type_py (.pbytes b) = .error .typeError) := by
  refine ⟨?_, fun b => rfl, fun b => rfl⟩
  intro b s h
  rw [extract_case_number_py, h]

/-- Witness for the amended C7: the UTF-8 bytes of `А40-1/24` decode and
extract as on the text input, year-normalized to 2024. -/
theorem bytes_handling_amended_witness :
    extract_case_number_py (.pbytes [208, 144, 52, 48, 45, 49, 47, 50, 52]) =
      .ok (some ("А40-1/2024".data)) := by
  have h := bytes_handling_amended.1 [208, 144, 52, 48, 45, 49, 47, 50, 52]
    ("А40-1/24".data) (by decide)
  exact h.trans (congrArg Except.ok (by decide))

/-- The descending relevance relation is transitive. -/
theorem relLe_trans (a b c : Dict) (h1 : relLe a b = true) (h2 : relLe b c = true) :
    relLe a c = true := by
  simp only [relLe, Bool.or_eq_true, Bool.and_eq_true, decide_eq_true_eq] at *
  rcases h1 with h1 | ⟨h1, h1b⟩
  · rcases h2 with h2 | ⟨h2, h2b⟩
    · exact Or.inl (lt_trans h2 h1)
    · exact Or.inl (h2 ▸ h1)
  · rcases h2 with h2 | ⟨h2, h2b⟩
    · exact Or.inl (h1 ▸ h2)
    · exact Or.inr ⟨h2.trans h1, le_trans h2b h1b⟩

/-- The descending relevance relation is total. -/
theorem relLe_total (a b : Dict) : (relLe a b || relLe b a) = true := by
  simp only [relLe, Bool.or_eq_true, Bool.and_eq_true, decide_eq_true_eq]
  rcases lt_trichotomy (sortKey b).1 (sortKey a).1 with h | h | h
  · exact Or.inl (Or.inl h)
  · rcases Nat.le_total (sortKey b).2 (sortKey a).2 with h2 | h2
    · exact Or.inl (Or.inr ⟨h, h2⟩)
    · exact Or.inr (Or.inr ⟨h.symm, h2⟩)
  · exact Or.inr (Or.inl h)

/-- C4: the multi-index fallback queries every configured index with the
per-index budget `max 2 (max_results / number of indices)`, concatenates
the per-index results, re-sorts them descending by (score, highlight
count) and truncates: the output never exceeds `max_results` and is
sorted by the descending relevance relation. -/
theorem multi_index_fallback_budget (be : Backend) (q : List Char) (n : Nat) :
    searchAllIndices be q n =
      (sortByRelevance
        (ES_INDICES.flatMap (fetchIndex be q (max 2 (n / ES_INDICES.length))))).take n ∧
    (searchAllIndices be q n).length ≤ n ∧
    (searchAllIndices be q n).Pairwise (fun a b => relLe a b = true) := by
  refine ⟨rfl, ?_, ?_⟩
  · exact List.length_take_le n _
  · exact List.Pairwise.sublist (List.take_sublist n _)
      (List.sorted_mergeSort relLe_trans relLe_total _)

/-- Congruence of `flatMap` under pointwise equality on the list. -/
theorem flatMap_congrOn {α β : Type} {L : List α} {f g : α → List β}
    (h : ∀ p ∈ L, f p = g p) : L.flatMap f = L.flatMap g := by
  induction L with
  | nil => rfl
  | cons a t ih =>
    rw [List.flatMap_cons, List.flatMap_cons, h a (List.mem_cons_self a t),
      ih (fun p hp => h p (List.mem_cons_of_mem a hp))]

/-- C5: backend failures never escape: a backend error on the
single-index court search yields the empty result list, and a backend
error on one index of the multi-index fallback is equivalent to that
index returning no hits - the results of all other indices are kept. -/
theorem backend_errors_degrade :
    (∀ (be : Backend) (q : List Char) (lim : Nat) (e : BackendError),
      be "court_decisions_index" (.court (courtBody q lim)) = .error e →
      search_court_decisions be q lim = []) ∧
    (∀ (be be2 : Backend) (q : List Char) (n : Nat) (iname : String) (e : BackendError),
      be iname (.generic (genericBody q (max 2 (n / ES_INDICES.length)))) = .error e →
      be2 iname (.generic (genericBody q (max 2 (n / ES_INDICES.length)))) = .ok [] →
      (∀ (i : String) (r : ESRequest),
        ¬(i = iname ∧ r = .generic (genericBody q (max 2 (n / ES_INDICES.length)))) →
        be i r = be2 i r) →
      searchAllIndices be q n = searchAllIndices be2 q n) := by
  constructor
  · intro be q lim e h
    rw [search_court_decisions, h]
  · intro be be2 q n iname e h1 h2 hag
    have hf : ES_INDICES.flatMap (fetchIndex be q (max 2 (n / ES_INDICES.length))) =
        ES_INDICES.flatMap (fetchIndex be2 q (max 2 (n / ES_INDICES.length))) := by
      apply flatMap_congrOn
      intro p hp
      by_cases hip : p.2 = iname
      · rw [fetchIndex, fetchIndex, hip, h1, h2]
        simp
      · have hagp := hag p.2 (.generic (genericBody q (max 2 (n / ES_INDICES.length))))
          (fun hc => hip hc.1)
        rw [fetchIndex, fetchIndex, hagp]
    show (sortByRelevance _).take n = (sortByRelevance _).take n
    rw [hf]

/-- Witness for C5: a backend that always fails yields an empty court
search; a backend failing only on `legal_articles_index` produces the same
fallback output as its repaired twin. -/
theorem backend_errors_degrade_witness :
    search_court_decisions beFailC ("иск".data) 10 = [] ∧
    searchAllIndices beFail2 ("спор".data) 10 = searchAllIndices beFail2Fixed ("спор".data) 10 := by
  constructor
  · exact backend_errors_degrade.1 beFailC ("иск".data) 10 (.failure "connection refused") rfl
  · refine backend_errors_degrade.2 beFail2 beFail2Fixed ("спор".data) 10
      "legal_articles_index" (.failure "index down") rfl ?_ ?_
    · show beFail2Fixed _ _ = _
      rw [beFail2Fixed, if_pos ⟨rfl, rfl⟩]
    · intro i r hc
      show beFail2 i r = beFail2Fixed i r
      rw [beFail2Fixed, if_neg hc]

/-- C9: when neither a case number nor a company name is extracted, the
top-level `search` takes the multi-index fallback path - even when a
document type is recognized in the query, which is never consulted at the
top level. -/
theorem no_entities_fallback_path (be : Backend) (q : List Char) (n : Nat)
    (h1 : extract_case_number q = none) (h2 : extract_company_name q = none) :
    search be q n = searchAllIndices be q n := by
  rw [search, h1, h2]

/-- Witness for C9: `подать иск` has a recognized document type but no
case number and no company name; `search` still takes the fallback
path. -/
theorem no_entities_fallback_path_witness :
    extract_document_type ("подать иск".data) = some ("исковое заявление".data) ∧
    search beOk ("подать иск".data) 10 = searchAllIndices beOk ("подать иск".data) 10 :=
  ⟨by decide, no_entities_fallback_path beOk ("подать иск".data) 10 (by rfl) (by rfl)⟩

/-- C10: when a case number or company name is extracted but the
entity-specific single-index search comes back empty, the top-level
`search` does not return that empty list - it falls through to the
multi-index fallback. -/
theorem empty_entity_results_fallback (be : Backend) (q : List Char) (n : Nat)
    (h : (extract_case_number q).isSome = true ∨ (extract_company_name q).isSome = true)
    (he : search_court_decisions be q n = []) :
    search be q n = searchAllIndices be q n := by
  cases hc : extract_case_number q with
  | some v =>
    cases hco : extract_company_name q with
    | some w =>
      rw [search, hc, hco, he]
      simp
    | none =>
      rw [search, hc, hco, he]
      simp
  | none =>
    cases hco : extract_company_name q with
    | some w =>
      rw [search, hc, hco, he]
      simp
    | none =>
      rw [hc, hco] at h
      simp at h

/-- Witness for C10: a case-number query against a backend with no
matching documents; `search` returns the fallback output. -/
theorem empty_entity_results_fallback_witness :
    search beOk ("А40-123/2019".data) 7 = searchAllIndices beOk ("А40-123/2019".data) 7 :=
  empty_entity_results_fallback beOk ("А40-123/2019".data) 7 (Or.inl (by rfl)) (by rfl)

end CustomRetriever
